import Mathlib

/-!
# Verification of the RAG_NGLStrategy core logic

Shallow embedding, in Lean 4, of the re-ranking / metadata-extraction /
text-normalization logic of the RAG_NGLStrategy repository, together with
proofs and refutations of the specification claims about it.

Embedded code:

* `clean_text` from `src/main.py` (lines 419-459): a pipeline of 14
  `re.sub` passes followed by `str.strip()`.  Each pass is translated to an
  executable scanner over `List Char` that reproduces the leftmost,
  non-overlapping, greedy-with-backtracking semantics of the corresponding
  Python regex (for ASCII text, which is all the claims need).
* `clean_text` from `src/main_GeminiCloud.py` (lines 538-572), including the
  iterated `fix_all_spaced_text` inner loop (at most 10 iterations).
* `parse_document_metadata`, `_get_node_creation_date` and
  `DatePriorityPostprocessor.postprocess_nodes` from `src/functions.py`,
  including the `★NO.(\d+)\s+(\w{3,9}\s+\d{1,2}\s+\d{4})` regex, the
  `datetime.strptime(_, "%b %d %Y")` parse (C locale, with CPython's
  `_strptime` day alternation `3[01]|[12]\d|0[0-9]|[0-9]` and whitespace
  handling) and calendar validation as performed by the `datetime`
  constructor.
* `delete_document`, `sync_pipeline` and `fetch_uploaded_documents` from
  `src/functions.py`, and `fetch_uploaded_documents` from
  `src/pages/rag_rim.py`, as functions of the HTTP outcomes of their
  collaborator calls, together with the module-level `_cache` state.

Python's `sorted(nodes, key=sort_key, reverse=True)` is a stable sort:
candidates are ordered by key descending and candidates with equal keys keep
their input order.  It is modelled by `List.insertionSort` under the
relation "my resolved date is at least yours", a stable insertion sort with
exactly that input/output behaviour.
-/

namespace RagNGL

/-! ## Character classes (ASCII fragment of Python `\s`, `\d`, `\w`, `[a-z]`) -/

/-- Python `\s` on ASCII text: space, tab, newline, carriage return,
vertical tab, form feed (also the characters removed by `str.strip()`). -/
def isSpc (c : Char) : Bool :=
  c = ' ' || c = '\t' || c = '\n' || c = '\x0d' || c = '\x0b' || c = '\x0c'

/-- Python `\d` on ASCII text. -/
def isDig (c : Char) : Bool :=
  '0' ≤ c && c ≤ '9'

/-- Python `[a-z]` with `re.IGNORECASE`, i.e. an ASCII letter. -/
def isLet (c : Char) : Bool :=
  ('a' ≤ c && c ≤ 'z') || ('A' ≤ c && c ≤ 'Z')

/-- Python `\w` on ASCII text: letter, digit or underscore. -/
def isWord (c : Char) : Bool :=
  isLet c || isDig c || c = '_'

/-- `c` is `/` or `$` (the class `[/$]`). -/
def isSlashDollar (c : Char) : Bool :=
  c = '/' || c = '$'

/-- `c` is one of `,;:.!?)` (the class in `\s+([,;:.!?)])`). -/
def isClosePunct (c : Char) : Bool :=
  c = ',' || c = ';' || c = ':' || c = '.' || c = '!' || c = '?' || c = ')'

/-- `c` is one of `,;:.!?` (the class in `([,;:.!?])\s+`). -/
def isPunct (c : Char) : Bool :=
  c = ',' || c = ';' || c = ':' || c = '.' || c = '!' || c = '?'

/-! ## The 14 `re.sub` passes of `clean_text` (`src/main.py` 419-459)

Each pass scans left to right; at each position it attempts the regex match
(greedy quantifiers, with the backtracking the pattern allows), emits the
replacement and resumes after the match, exactly as `re.sub` does.  The
scanners recurse on a fuel argument; every recursive call consumes at least
one input character, and the initial fuel is the input length, so fuel never
runs out on the inputs the functions are applied to. -/

/-- Pass 1, `re.sub(r'\*+', '', text)`: every run of `*` is removed, i.e.
every `*` is removed. -/
def subStar (cs : List Char) : List Char :=
  cs.filter (fun c => c ≠ '*')

/-- Pass 2, `re.sub(r'(\d)\s+(?=\d)', r'\1', text)`: a digit followed by a
(maximal) whitespace run followed by a digit loses the whitespace; the
lookahead digit is not consumed, so the scan resumes on it. -/
def subDigitWsDigit : Nat → List Char → List Char
  | 0, cs => cs
  | _ + 1, [] => []
  | fuel + 1, c :: cs =>
    if isDig c then
      match cs.dropWhile isSpc with
      | d :: rest =>
        if cs.takeWhile isSpc ≠ [] && isDig d then
          c :: subDigitWsDigit fuel (d :: rest)
        else
          c :: subDigitWsDigit fuel cs
      | [] => c :: subDigitWsDigit fuel cs
    else
      c :: subDigitWsDigit fuel cs

/-- Pass 3, `re.sub(r'([/$])\s+', r'\1', text)`: `/` or `$` followed by a
whitespace run loses the run. -/
def subWsAfterSlashDollar : Nat → List Char → List Char
  | 0, cs => cs
  | _ + 1, [] => []
  | fuel + 1, c :: cs =>
    if isSlashDollar c && cs.takeWhile isSpc ≠ [] then
      c :: subWsAfterSlashDollar fuel (cs.dropWhile isSpc)
    else
      c :: subWsAfterSlashDollar fuel cs

/-- Pass 4, `re.sub(r'\s+([/$])', r'\1', text)`: a maximal whitespace run
immediately followed by `/` or `$` is deleted (a shorter run cannot match,
since the character after it is again whitespace). -/
def subWsBeforeSlashDollar : Nat → List Char → List Char
  | 0, cs => cs
  | _ + 1, [] => []
  | fuel + 1, c :: cs =>
    if isSpc c then
      match (c :: cs).dropWhile isSpc with
      | d :: rest =>
        if isSlashDollar d then
          d :: subWsBeforeSlashDollar fuel rest
        else
          (c :: cs).takeWhile isSpc ++ subWsBeforeSlashDollar fuel (d :: rest)
      | [] => (c :: cs).takeWhile isSpc
    else
      c :: subWsBeforeSlashDollar fuel cs

/-- Pass 5, `re.sub(r'/\s*m\s*t\b', '/mt', text, flags=re.IGNORECASE)`:
`/`, optional whitespace, `m`/`M`, optional whitespace, `t`/`T`, then a word
boundary (next character, if any, is not a word character). -/
def subSlashMT : Nat → List Char → List Char
  | 0, cs => cs
  | _ + 1, [] => []
  | fuel + 1, c :: cs =>
    if c = '/' then
      match cs.dropWhile isSpc with
      | m :: restM =>
        if m = 'm' || m = 'M' then
          match restM.dropWhile isSpc with
          | t :: restT =>
            if (t = 't' || t = 'T')
                && (match restT with | [] => true | e :: _ => !isWord e) then
              '/' :: 'm' :: 't' :: subSlashMT fuel restT
            else
              c :: subSlashMT fuel cs
          | [] => c :: subSlashMT fuel cs
        else
          c :: subSlashMT fuel cs
      | [] => c :: subSlashMT fuel cs
    else
      c :: subSlashMT fuel cs

/-- Pass 6, `re.sub(r'U\s*S\s*\$?\s*', 'US$', text)`: `U`, optional
whitespace, `S`, optional whitespace, an optional `$`, optional whitespace;
all replaced by `US$`.  The trailing `\s*` is greedy, so the match swallows
all whitespace after the (optional) dollar sign. -/
def subUSDollar : Nat → List Char → List Char
  | 0, cs => cs
  | _ + 1, [] => []
  | fuel + 1, c :: cs =>
    if c = 'U' then
      match cs.dropWhile isSpc with
      | s :: restS =>
        if s = 'S' then
          let afterWs := restS.dropWhile isSpc
          let afterDollar := match afterWs with
            | '$' :: r => r
            | r => r
          'U' :: 'S' :: '$' :: subUSDollar fuel (afterDollar.dropWhile isSpc)
        else
          c :: subUSDollar fuel cs
      | [] => c :: subUSDollar fuel cs
    else
      c :: subUSDollar fuel cs

/-- Pass 7, `re.sub(r'\$\s+(\d)', r'$\1', text)`: `$`, a nonempty whitespace
run, a digit; the digit is part of the match, so the scan resumes after
it. -/
def subDollarWsDigit : Nat → List Char → List Char
  | 0, cs => cs
  | _ + 1, [] => []
  | fuel + 1, c :: cs =>
    if c = '$' && cs.takeWhile isSpc ≠ [] then
      match cs.dropWhile isSpc with
      | d :: rest =>
        if isDig d then
          '$' :: d :: subDollarWsDigit fuel rest
        else
          c :: subDollarWsDigit fuel cs
      | [] => c :: subDollarWsDigit fuel cs
    else
      c :: subDollarWsDigit fuel cs

/-- Greedy tail of pass 8: after a last matched letter, consume as many
`\s+[a-z]` units as the trailing `\b` allows.  A unit whose letter is
directly followed by a word character is not taken (taking it would break
the final word boundary, and no further unit could follow since no
whitespace follows); a unit whose letter is followed by a non-word character
(or the end) is taken and the search continues.  Returns the consumed
characters and the rest. -/
def spacedWordTail : Nat → List Char → List Char × List Char
  | 0, cs => ([], cs)
  | fuel + 1, cs =>
    let w := cs.takeWhile isSpc
    match cs.dropWhile isSpc with
    | d :: rest =>
      if w ≠ [] && isLet d then
        match rest with
        | [] => (w ++ [d], [])
        | e :: _ =>
          if isWord e then
            ([], cs)
          else
            let (ext, rem) := spacedWordTail fuel rest
            (w ++ d :: ext, rem)
      else
        ([], cs)
    | [] => ([], cs)

/-- Pass 8,
`re.sub(r'\b([a-z])\s+([a-z])\s+([a-z](?:\s+[a-z])*)\b', g0 -> g0.replace(' ', ''), text, flags=re.IGNORECASE)`:
at a word boundary, at least three single letters separated by whitespace
runs, extended greedily while the final word boundary holds; only the space
characters (not tabs or newlines) of the match are removed, exactly as
`str.replace(' ', '')` does.  `prev` is the character before the current
position (`none` at the start of the string), used for the leading `\b`. -/
def subSpacedWord : Nat → Option Char → List Char → List Char
  | 0, _, cs => cs
  | _ + 1, _, [] => []
  | fuel + 1, prev, c :: cs =>
    let boundary := match prev with
      | none => true
      | some p => !isWord p
    if boundary && isLet c then
      let w1 := cs.takeWhile isSpc
      match cs.dropWhile isSpc with
      | d :: restD =>
        if w1 ≠ [] && isLet d then
          let w2 := restD.takeWhile isSpc
          match restD.dropWhile isSpc with
          | e :: restE =>
            if w2 ≠ [] && isLet e then
              let tail := spacedWordTail fuel restE
              if tail.1 = [] then
                match restE with
                | [] =>
                  (c :: w1 ++ d :: w2 ++ [e]).filter (fun x => x ≠ ' ')
                | f :: _ =>
                  if isWord f then
                    c :: subSpacedWord fuel (some c) cs
                  else
                    (c :: w1 ++ d :: w2 ++ [e]).filter (fun x => x ≠ ' ')
                      ++ subSpacedWord fuel (some e) restE
              else
                (c :: w1 ++ d :: w2 ++ e :: tail.1).filter (fun x => x ≠ ' ')
                  ++ subSpacedWord fuel (some 'a') tail.2
            else
              c :: subSpacedWord fuel (some c) cs
          | [] => c :: subSpacedWord fuel (some c) cs
        else
          c :: subSpacedWord fuel (some c) cs
      | [] => c :: subSpacedWord fuel (some c) cs
    else
      c :: subSpacedWord fuel (some c) cs

/-- Pass 9, `re.sub(r' +', ' ', text)`: runs of space characters collapse to
one space. -/
def subSpaces : Nat → List Char → List Char
  | 0, cs => cs
  | _ + 1, [] => []
  | fuel + 1, c :: cs =>
    if c = ' ' then
      ' ' :: subSpaces fuel (cs.dropWhile (fun x => x = ' '))
    else
      c :: subSpaces fuel cs

/-- The suffix of `l` after its last `'\n'`, or `none` if `l` has no
newline. -/
def afterLastNewline : List Char → Option (List Char)
  | [] => none
  | c :: t =>
    match afterLastNewline t with
    | some s => some s
    | none => if c = '\n' then some t else none

/-- Pass 10, `re.sub(r'\n\s*\n+', '\n\n', text)`: a newline followed by a
whitespace run containing at least one further newline.  The greedy `\s*`
backtracks to the last newline of the run, which the `\n+` then consumes, so
the match ends after the last newline of the run (any trailing non-newline
whitespace of the run survives) and is replaced by exactly two newlines. -/
def subBlankLines : Nat → List Char → List Char
  | 0, cs => cs
  | _ + 1, [] => []
  | fuel + 1, c :: cs =>
    if c = '\n' then
      match afterLastNewline (cs.takeWhile isSpc) with
      | some suffix =>
        '\n' :: '\n' :: subBlankLines fuel (suffix ++ cs.dropWhile isSpc)
      | none => '\n' :: subBlankLines fuel cs
    else
      c :: subBlankLines fuel cs

/-- Pass 11, `re.sub(r'\s+([,;:.!?)])', r'\1', text)`: a maximal whitespace
run immediately followed by closing punctuation is deleted. -/
def subWsBeforeClose : Nat → List Char → List Char
  | 0, cs => cs
  | _ + 1, [] => []
  | fuel + 1, c :: cs =>
    if isSpc c then
      match (c :: cs).dropWhile isSpc with
      | d :: rest =>
        if isClosePunct d then
          d :: subWsBeforeClose fuel rest
        else
          (c :: cs).takeWhile isSpc ++ subWsBeforeClose fuel (d :: rest)
      | [] => (c :: cs).takeWhile isSpc
    else
      c :: subWsBeforeClose fuel cs

/-- Pass 12, `re.sub(r'([(])\s+', r'\1', text)`: `(` followed by a
whitespace run loses the run. -/
def subWsAfterParen : Nat → List Char → List Char
  | 0, cs => cs
  | _ + 1, [] => []
  | fuel + 1, c :: cs =>
    if c = '(' && cs.takeWhile isSpc ≠ [] then
      '(' :: subWsAfterParen fuel (cs.dropWhile isSpc)
    else
      c :: subWsAfterParen fuel cs

/-- Pass 13, `re.sub(r'([,;:.!?])\s+', r'\1 ', text)`: punctuation followed
by a whitespace run is replaced by the punctuation and a single space. -/
def subPunctWs : Nat → List Char → List Char
  | 0, cs => cs
  | _ + 1, [] => []
  | fuel + 1, c :: cs =>
    if isPunct c && cs.takeWhile isSpc ≠ [] then
      c :: ' ' :: subPunctWs fuel (cs.dropWhile isSpc)
    else
      c :: subPunctWs fuel cs

/-- Pass 14, `re.sub(r'(\d+)\s*-\s*(\d+)', r'\1-\2', text)`: a digit run,
optional whitespace, `-`, optional whitespace, a digit run; rewritten with
the whitespace removed.  On failure the whole leading digit run is emitted:
a match starting inside the run would fail for the same reason. -/
def subNumDash : Nat → List Char → List Char
  | 0, cs => cs
  | _ + 1, [] => []
  | fuel + 1, c :: cs =>
    if isDig c then
      let d1 := (c :: cs).takeWhile isDig
      let restA := (c :: cs).dropWhile isDig
      match (restA.dropWhile isSpc) with
      | '-' :: restC =>
        let restD := restC.dropWhile isSpc
        if restD.takeWhile isDig ≠ [] then
          d1 ++ '-' :: restD.takeWhile isDig ++ subNumDash fuel (restD.dropWhile isDig)
        else
          d1 ++ subNumDash fuel restA
      | _ => d1 ++ subNumDash fuel restA
    else
      c :: subNumDash fuel cs

/-- `str.strip()`: remove leading and trailing whitespace. -/
def pyStrip (cs : List Char) : List Char :=
  ((cs.dropWhile isSpc).reverse.dropWhile isSpc).reverse

/-- `clean_text` from `src/main.py` (lines 419-459): the 14 substitution
passes in source order, then `strip()`. -/
def cleanTextList (cs : List Char) : List Char :=
  let t1 := subStar cs
  let t2 := subDigitWsDigit t1.length t1
  let t3 := subWsAfterSlashDollar t2.length t2
  let t4 := subWsBeforeSlashDollar t3.length t3
  let t5 := subSlashMT t4.length t4
  let t6 := subUSDollar t5.length t5
  let t7 := subDollarWsDigit t6.length t6
  let t8 := subSpacedWord t7.length none t7
  let t9 := subSpaces t8.length t8
  let t10 := subBlankLines t9.length t9
  let t11 := subWsBeforeClose t10.length t10
  let t12 := subWsAfterParen t11.length t11
  let t13 := subPunctWs t12.length t12
  let t14 := subNumDash t13.length t13
  pyStrip t14

/-- `clean_text` from `src/main.py` as a `String → String` function. -/
def cleanText (s : String) : String :=
  String.mk (cleanTextList s.data)

/-! ## `clean_text` from `src/main_GeminiCloud.py` (lines 538-572)

The Gemini variant shares several passes with the `main.py` variant
(asterisk removal, `/mt` repair, number ranges, space/blank-line collapse,
punctuation spacing, `strip`), normalizes Unicode dashes, and replaces the
single spaced-word pass by `fix_all_spaced_text`, an iterated pair of
substitutions over SINGLE literal spaces. -/

/-- `re.sub(r'[−‑–—]', '-', text)`: Unicode minus sign, non-breaking
hyphen, en dash and em dash all become `-`. -/
def subDashes (cs : List Char) : List Char :=
  cs.map (fun c =>
    if c = '−' || c = '‑' || c = '–' || c = '—' then '-' else c)

/-- Greedy unit consumption for the `fix_all_spaced_text` patterns: units
are `X ' '` pairs (`X` per `unitCls`), followed by a final `X` carrying a
word boundary.  Returns the position-advanced form: the consumed characters
and the rest, or `none` when no final `X` with a boundary can be placed. -/
def singleSpacedTail (unitCls : Char → Bool) : Nat → List Char → Option (List Char × List Char)
  | 0, _ => none
  | fuel + 1, cs =>
    match cs with
    | d :: ' ' :: rest =>
      if unitCls d then
        match singleSpacedTail unitCls fuel rest with
        | some (ext, rem) => some (d :: ' ' :: ext, rem)
        | none =>
          -- cannot extend: `d` itself must be the final letter; the next
          -- character is the consumed space, so the boundary holds.
          some ([d], ' ' :: rest)
      else
        none
    | d :: rest =>
      if unitCls d && (match rest with | [] => true | e :: _ => !isWord e) then
        some ([d], rest)
      else
        none
    | [] => none

/-- One pass of `re.sub(r'\b([a-zA-Z]) ((?:[a-zA-Z] ){1,}[a-zA-Z])\b', g0 ->
g0.replace(' ', ''), text)` (with `unitCls = isLet`, requiring at least
three letters) or of `re.sub(r'\b(\d) ((?:\d ){0,}\d)\b', ..., text)` (with
`unitCls = isDig`, requiring at least two digits).  `minUnits` is the
minimum number of `(X ' ')` units after the leading `X ' '`: 1 for the
letters pattern, 0 for the digits pattern. -/
def subSingleSpaced (unitCls : Char → Bool) (minUnits : Nat) : Nat → Option Char → List Char → List Char
  | 0, _, cs => cs
  | _ + 1, _, [] => []
  | fuel + 1, prev, c :: cs =>
    let boundary := match prev with
      | none => true
      | some p => !isWord p
    match cs with
    | ' ' :: rest =>
      if boundary && unitCls c then
        match singleSpacedTail unitCls (rest.length + 1) rest with
        | some (ext, rem) =>
          -- `ext` holds the units and final letter; `(ext.length + 1) / 2`
          -- units precede the final letter.
          if minUnits ≤ ext.length / 2 then
            (c :: ' ' :: ext).filter (fun x => x ≠ ' ')
              ++ subSingleSpaced unitCls minUnits fuel (some 'a') rem
          else
            c :: subSingleSpaced unitCls minUnits fuel (some c) cs
        | none => c :: subSingleSpaced unitCls minUnits fuel (some c) cs
      else
        c :: subSingleSpaced unitCls minUnits fuel (some c) cs
    | _ => c :: subSingleSpaced unitCls minUnits fuel (some c) cs

/-- One iteration of the body of `fix_all_spaced_text`: the letters
substitution followed by the digits substitution. -/
def fixSpacedOnce (cs : List Char) : List Char :=
  let t := subSingleSpaced isLet 1 cs.length none cs
  subSingleSpaced isDig 0 t.length none t

/-- `fix_all_spaced_text` (inside the Gemini `clean_text`): repeat
`fixSpacedOnce` up to 10 times, stopping early when a pass changes
nothing. -/
def fixAllSpaced : Nat → List Char → List Char
  | 0, cs => cs
  | n + 1, cs =>
    let t := fixSpacedOnce cs
    if t = cs then cs else fixAllSpaced n t

/-- `re.sub(r'\$\s+', '$', text)`: `$` followed by a whitespace run loses
the run. -/
def subWsAfterDollarG : Nat → List Char → List Char
  | 0, cs => cs
  | _ + 1, [] => []
  | fuel + 1, c :: cs =>
    if c = '$' && cs.takeWhile isSpc ≠ [] then
      '$' :: subWsAfterDollarG fuel (cs.dropWhile isSpc)
    else
      c :: subWsAfterDollarG fuel cs

/-- `re.sub(r'\s+\$', ' $', text)`: a maximal whitespace run immediately
followed by `$` becomes a single space before the `$`. -/
def subWsBeforeDollarG : Nat → List Char → List Char
  | 0, cs => cs
  | _ + 1, [] => []
  | fuel + 1, c :: cs =>
    if isSpc c then
      match (c :: cs).dropWhile isSpc with
      | d :: rest =>
        if d = '$' then
          ' ' :: '$' :: subWsBeforeDollarG fuel rest
        else
          (c :: cs).takeWhile isSpc ++ subWsBeforeDollarG fuel (d :: rest)
      | [] => (c :: cs).takeWhile isSpc
    else
      c :: subWsBeforeDollarG fuel cs

/-- `re.sub(r'U\s*S\s*\$', 'US$', text)`: unlike the `main.py` variant the
dollar sign is required. -/
def subUSDollarG : Nat → List Char → List Char
  | 0, cs => cs
  | _ + 1, [] => []
  | fuel + 1, c :: cs =>
    if c = 'U' then
      match cs.dropWhile isSpc with
      | s :: restS =>
        if s = 'S' then
          match restS.dropWhile isSpc with
          | '$' :: rest => 'U' :: 'S' :: '$' :: subUSDollarG fuel rest
          | _ => c :: subUSDollarG fuel cs
        else
          c :: subUSDollarG fuel cs
      | [] => c :: subUSDollarG fuel cs
    else
      c :: subUSDollarG fuel cs

/-- `re.sub(r'\.([A-Z])', r'. \1', text)`: a period directly followed by a
capital letter gains a space; the capital is consumed by the match. -/
def subDotCapital : Nat → List Char → List Char
  | 0, cs => cs
  | _ + 1, [] => []
  | fuel + 1, c :: cs =>
    if c = '.' then
      match cs with
      | d :: rest =>
        if 'A' ≤ d && d ≤ 'Z' then
          '.' :: ' ' :: d :: subDotCapital fuel rest
        else
          '.' :: subDotCapital fuel cs
      | [] => ['.']
    else
      c :: subDotCapital fuel cs

/-- `clean_text` from `src/main_GeminiCloud.py` (lines 538-572): its 12
substitution steps in source order, then `strip()`. -/
def cleanTextGeminiList (cs : List Char) : List Char :=
  let t1 := subStar cs
  let t2 := subDashes t1
  let t3 := subSlashMT t2.length t2
  let t4 := fixAllSpaced 10 t3
  let t5 := subWsAfterDollarG t4.length t4
  let t6 := subWsBeforeDollarG t5.length t5
  let t7 := subUSDollarG t6.length t6
  let t8 := subNumDash t7.length t7
  let t9 := subDotCapital t8.length t8
  let t10 := subSpaces t9.length t9
  let t11 := subBlankLines t10.length t10
  let t12 := subWsBeforeClose t11.length t11
  let t13 := subWsAfterParen t12.length t12
  pyStrip t13

/-- `clean_text` from `src/main_GeminiCloud.py` as a `String → String`
function. -/
def cleanTextGemini (s : String) : String :=
  String.mk (cleanTextGeminiList s.data)

/-! ## Dates (`datetime.datetime`, date part)

The dates handled by this code (`strptime`, `fromisoformat` on plain dates,
`datetime(2000+yy, mm, dd)`, `datetime.min`) are calendar dates; the time
components are always midnight and are elided. -/

/-- A Python `datetime` value (date part; times in this system are always
midnight). -/
structure PyDateTime where
  year : Nat
  month : Nat
  day : Nat
deriving DecidableEq, Repr

/-- The Gregorian leap-year rule used by `datetime`. -/
def isLeapYear (y : Nat) : Bool :=
  y % 4 = 0 && (y % 100 ≠ 0 || y % 400 = 0)

/-- Days in a month, as enforced by the `datetime` constructor. -/
def daysInMonth (y m : Nat) : Nat :=
  if m = 1 || m = 3 || m = 5 || m = 7 || m = 8 || m = 10 || m = 12 then 31
  else if m = 4 || m = 6 || m = 9 || m = 11 then 30
  else if isLeapYear y then 29 else 28

/-- `datetime(y, m, d)`: `some` date if the constructor accepts the
arguments (`MINYEAR = 1`, `MAXYEAR = 9999`, valid month, valid day of
month), `none` when it raises `ValueError`. -/
def mkDatetime (y m d : Nat) : Option PyDateTime :=
  if 1 ≤ y ∧ y ≤ 9999 ∧ 1 ≤ m ∧ m ≤ 12 ∧ 1 ≤ d ∧ d ≤ daysInMonth y m then
    some ⟨y, m, d⟩
  else none

/-- `datetime.min`, the key given to date-less nodes by `sort_key`. -/
def dtMin : PyDateTime := ⟨1, 1, 1⟩

/-- Comparison of `datetime` values: lexicographic on (year, month, day). -/
def dtLe (a b : PyDateTime) : Prop :=
  a.year < b.year
    ∨ (a.year = b.year
        ∧ (a.month < b.month ∨ (a.month = b.month ∧ a.day ≤ b.day)))

instance (a b : PyDateTime) : Decidable (dtLe a b) := by
  unfold dtLe; infer_instance

/-- A date a Python `datetime` object can actually hold. -/
def validDate (d : PyDateTime) : Prop :=
  1 ≤ d.year ∧ d.year ≤ 9999 ∧ 1 ≤ d.month ∧ d.month ≤ 12
    ∧ 1 ≤ d.day ∧ d.day ≤ daysInMonth d.year d.month

instance (d : PyDateTime) : Decidable (validDate d) := by
  unfold validDate; infer_instance

/-! ## `parse_document_metadata` (`src/functions.py` 648-682)

The regex `★NO\.(\d+)\s+(\w{3,9}\s+\d{1,2}\s+\d{4})` is searched leftmost;
each quantifier is greedy.  `\d+`, and every `\s+`, can only match its
maximal run (giving characters back re-fails on the same character class),
so the true backtracking choice points are the month length `\w{3,9}`
(tried from longest to shortest) and the day length `\d{1,2}` (2 then 1).
The captured date string is then given to
`datetime.strptime(date_str, "%b %d %Y")`, and a `ValueError`/`TypeError`
is converted to `None`. -/

/-- The numeric value of a digit string (`int(...)` on a `\d+` match). -/
def natOfDigits (ds : List Char) : Nat :=
  ds.foldl (fun a c => a * 10 + (c.toNat - 48)) 0

/-- One attempt of the month/day part of the marker regex with a fixed
month length `L`: `L` word characters, `\s+`, `\d{1,2}` (day length
`dayL`), `\s+`, `\d{4}`.  Returns the text of capture group 2. -/
def markerTryDay (mPart w2 r2 : List Char) (dayL : Nat) : Option (List Char) :=
  let day := r2.take dayL
  if day.length = dayL ∧ day.all isDig then
    let afterD := r2.drop dayL
    let w3 := afterD.takeWhile isSpc
    if w3 = [] then none
    else
      let r3 := afterD.dropWhile isSpc
      let yr := r3.take 4
      if yr.length = 4 ∧ yr.all isDig then
        some (mPart ++ w2 ++ day ++ w3 ++ yr)
      else none
  else none

/-- Month length attempt: take `L` word characters as the `\w{3,9}` match,
then require `\s+` and try day lengths 2 then 1 (`\d{1,2}` is greedy). -/
def markerTryMonthLen (body : List Char) (L : Nat) : Option (List Char) :=
  let mPart := body.take L
  let afterM := body.drop L
  let w2 := afterM.takeWhile isSpc
  if w2 = [] then none
  else
    let r2 := afterM.dropWhile isSpc
    match markerTryDay mPart w2 r2 2 with
    | some g => some g
    | none => markerTryDay mPart w2 r2 1

/-- Greedy month-length loop: try `L, L-1, …, 3`. -/
def markerMonthLoop (body : List Char) : Nat → Option (List Char)
  | 0 => none
  | 1 => none
  | 2 => none
  | L + 3 =>
    match markerTryMonthLen body (L + 3) with
    | some g => some g
    | none => markerMonthLoop body (L + 2)

/-- Attempt the whole marker regex at the current position: `★NO.`, a digit
run (group 1), `\s+`, then the month/day/year part (group 2). -/
def markerTryAt (cs : List Char) : Option (List Char × List Char) :=
  match cs with
  | '★' :: 'N' :: 'O' :: '.' :: rest =>
    let g1 := rest.takeWhile isDig
    if g1 = [] then none
    else
      let r1 := rest.dropWhile isDig
      if r1.takeWhile isSpc = [] then none
      else
        let body := r1.dropWhile isSpc
        let runLen := (body.takeWhile isWord).length
        match markerMonthLoop body (min 9 runLen) with
        | some g2 => some (g1, g2)
        | none => none
  | _ => none

/-- `re.search`: attempt the pattern at each position, left to right. -/
def markerSearch : Nat → List Char → Option (List Char × List Char)
  | 0, _ => none
  | _ + 1, [] => none
  | fuel + 1, c :: cs =>
    match markerTryAt (c :: cs) with
    | some g => some g
    | none => markerSearch fuel cs

/-- The month abbreviations of `%b` in the C locale, matched
case-insensitively by CPython's `_strptime`. -/
def monthFromAbbrev (cs : List Char) : Option Nat :=
  match cs.map Char.toLower with
  | ['j', 'a', 'n'] => some 1
  | ['f', 'e', 'b'] => some 2
  | ['m', 'a', 'r'] => some 3
  | ['a', 'p', 'r'] => some 4
  | ['m', 'a', 'y'] => some 5
  | ['j', 'u', 'n'] => some 6
  | ['j', 'u', 'l'] => some 7
  | ['a', 'u', 'g'] => some 8
  | ['s', 'e', 'p'] => some 9
  | ['o', 'c', 't'] => some 10
  | ['n', 'o', 'v'] => some 11
  | ['d', 'e', 'c'] => some 12
  | _ => none

/-- Day-and-year part of `strptime(_, "%b %d %Y")`: the day is matched by
CPython's `%d` alternation `3[01]|[12]\d|0[0-9]|[0-9]` (the two-digit
branches are mutually exclusive, and the one-digit branch is the fallback
when the rest of the format fails after a two-digit day), then `\s+`, then
exactly four digits, which must end the string ("unconverted data
remains" otherwise).  Finally `datetime` construction validates the
calendar date. -/
def strptimeDayYear (mo : Nat) (cs : List Char) : Option PyDateTime :=
  let rest := fun (d : Nat) (t : List Char) =>
    let w3 := t.takeWhile isSpc
    if w3 = [] then none
    else
      match t.dropWhile isSpc with
      | [y1, y2, y3, y4] =>
        if isDig y1 && isDig y2 && isDig y3 && isDig y4 then
          mkDatetime (natOfDigits [y1, y2, y3, y4]) mo d
        else none
      | _ => none
  let twoDigit := match cs with
    | a :: b :: t =>
      if (a = '3' && (b = '0' || b = '1'))
          || ((a = '1' || a = '2') && isDig b)
          || (a = '0' && isDig b) then
        rest ((a.toNat - 48) * 10 + (b.toNat - 48)) t
      else none
    | _ => none
  match twoDigit with
  | some d => some d
  | none =>
    match cs with
    | a :: t => if isDig a then rest (a.toNat - 48) t else none
    | [] => none

/-- `datetime.strptime(date_str, "%b %d %Y")` (C locale), returning `none`
where Python raises `ValueError`: three characters matched
case-insensitively against a month abbreviation, `\s+` (whitespace in a
`strptime` format matches one or more whitespace characters), day, `\s+`,
four-digit year. -/
def strptimeBDY (cs : List Char) : Option PyDateTime :=
  match cs with
  | m1 :: m2 :: m3 :: rest =>
    match monthFromAbbrev [m1, m2, m3] with
    | none => none
    | some mo =>
      if rest.takeWhile isSpc = [] then none
      else strptimeDayYear mo (rest.dropWhile isSpc)
  | _ => none

/-- The structured result of `parse_document_metadata`: the dict
`{'no': int, 'creation_date': datetime}`. -/
structure DocMeta where
  no : Nat
  creation_date : PyDateTime
deriving DecidableEq, Repr

/-- `parse_document_metadata(text)` (`src/functions.py` 651-682): empty
text returns `None`; otherwise the first regex match is parsed, and a
match whose date `strptime` rejects returns `None`. -/
def parseDocumentMetadata (text : String) : Option DocMeta :=
  if text = "" then none
  else
    match markerSearch (text.data.length + 1) text.data with
    | none => none
    | some (g1, g2) =>
      match strptimeBDY g2 with
      | some d => some ⟨natOfDigits g1, d⟩
      | none => none

/-! ## `_get_node_creation_date` (`src/functions.py` 685-725) -/

/-- `datetime.fromisoformat` restricted to plain `YYYY-MM-DD` strings (the
only shape of ISO date this pipeline stores); any other input is treated as
raising, i.e. `none`.  The three-tier-resolution theorem is insensitive to
this parser's exact domain because the code's tier (a) and its
specification both call the same function. -/
def parseIsoDate (s : String) : Option PyDateTime :=
  match s.data with
  | [y1, y2, y3, y4, '-', m1, m2, '-', d1, d2] =>
    if isDig y1 && isDig y2 && isDig y3 && isDig y4 && isDig m1 && isDig m2
        && isDig d1 && isDig d2 then
      mkDatetime (natOfDigits [y1, y2, y3, y4]) (natOfDigits [m1, m2])
        (natOfDigits [d1, d2])
    else none
  | _ => none

/-- The value stored under `metadata['creation_date']`: a `datetime`
object, a string, or something of another type (on which `fromisoformat`
raises `TypeError`). -/
inductive MetaVal where
  | dt (d : PyDateTime)
  | str (v : String)
  | other
deriving DecidableEq

/-- Node metadata: the two keys this code reads.  A `none` field models the
key being absent. -/
structure NodeMeta where
  creation_date : Option MetaVal := none
  file_name : Option String := none
deriving DecidableEq

/-- `node.node`: `text` is `none` when the object has no `text` attribute
(the code then uses `''`); `metadata` models
`getattr(node.node, 'metadata', {}) or {}`, which turns both an absent and
a `None` metadata into `{}` — so it is embedded directly as a `NodeMeta`. -/
structure InnerNode where
  text : Option String := none
  metadata : NodeMeta := {}
deriving DecidableEq

/-- A `NodeWithScore`: the inner node plus the retriever score (opaque
here: it is never used for ranking). -/
structure NodeWithScore where
  node : InnerNode
  score : Option Int := none
deriving DecidableEq

/-- Tier (a) of `_get_node_creation_date`: the `creation_date` metadata
entry if present and usable — returned directly when it is a `datetime`,
parsed with `fromisoformat` when it is a string; a failed parse or an
unsupported type falls through (`except (ValueError, TypeError): pass`). -/
def priorMetadataDate (m : NodeMeta) : Option PyDateTime :=
  match m.creation_date with
  | some (.dt d) => some d
  | some (.str v) => parseIsoDate v
  | some .other => none
  | none => none

/-- Tier (c) of `_get_node_creation_date`:
`re.match(r'lpg(\d{2})(\d{2})(\d{2})\.pdf', file_name)` (anchored at the
start, trailing characters permitted) and `datetime(2000+yy, mm, dd)`,
whose `ValueError` yields `None`. -/
def filenameDate (fileName : String) : Option PyDateTime :=
  match fileName.data with
  | 'l' :: 'p' :: 'g' :: y1 :: y2 :: m1 :: m2 :: d1 :: d2 :: '.' :: 'p' :: 'd' :: 'f' :: _ =>
    if isDig y1 && isDig y2 && isDig m1 && isDig m2 && isDig d1 && isDig d2 then
      mkDatetime (2000 + natOfDigits [y1, y2]) (natOfDigits [m1, m2])
        (natOfDigits [d1, d2])
    else none
  | _ => none

/-- `_get_node_creation_date(node)` (`src/functions.py` 685-725): metadata
`creation_date` first, then the `★NO` pattern in the node text
(`node.node.text if hasattr(node.node, 'text') else ''`), then the
`lpgYYMMDD.pdf` file-name pattern; `None` when all three fail. -/
def getNodeCreationDate (n : NodeWithScore) : Option PyDateTime :=
  match priorMetadataDate n.node.metadata with
  | some d => some d
  | none =>
    let text := n.node.text.getD ""
    match parseDocumentMetadata text with
    | some parsed => some parsed.creation_date
    | none => filenameDate (n.node.metadata.file_name.getD "")

/-! ## `DatePriorityPostprocessor.postprocess_nodes` (`src/functions.py` 745-773)

`sorted(nodes, key=sort_key, reverse=True)` is a stable sort: the output is
ordered by key descending, and elements with equal keys keep their input
order.  `List.insertionSort` with the relation "my key is at least yours"
has exactly that behaviour (`orderedInsert` places each element, taken in
input order, before the first earlier-sorted element it is `≽`, hence
before nothing with a strictly larger key and after all earlier elements
of equal key). -/

/-- `sort_key` (the inner function of `postprocess_nodes`): the resolved
creation date, or `datetime.min` for nodes without one, so that they sort
last. -/
def sortKeyFn (n : NodeWithScore) : PyDateTime :=
  (getNodeCreationDate n).getD dtMin

/-- The descending comparison used by the stable sort: `a ≽ b` iff `a`'s
key is at least `b`'s. -/
def nodeGe (a b : NodeWithScore) : Prop :=
  dtLe (sortKeyFn b) (sortKeyFn a)

instance (a b : NodeWithScore) : Decidable (nodeGe a b) := by
  unfold nodeGe; infer_instance

/-- `postprocess_nodes(self, nodes, ...)`: the stable descending sort by
resolved creation date.  (The subsequent `logger.debug` loop only reads the
nodes.) -/
def postprocessNodes (nodes : List NodeWithScore) : List NodeWithScore :=
  nodes.insertionSort nodeGe

/-! ## Document management (`src/functions.py` 35-47, 186-234, 237-280, 283-413)

`delete_document`, `sync_pipeline` and `fetch_uploaded_documents` are
embedded as functions of the outcomes of their HTTP calls.  An outcome is
either a response (status code, plus the error-detail string the code
extracts from the body — `error_detail.get('detail', '')` stringified) or a
raised `requests.RequestException`.

The `@retry_with_backoff` decorator on `delete_document` is transparent:
the function catches `requests.RequestException` internally, so the only
exception it can raise is the non-retryable `ValueError`.  On
`fetch_uploaded_documents` the decorator retries up to 3 times and then
re-raises the last exception; it is modelled by `retryRun` over the list of
per-attempt outcomes. -/

/-- The module-level `_cache` dict (`src/functions.py` 35-39); the handles
are opaque. -/
structure Cache where
  index : Option Nat := none
  llm : Option Nat := none
  query_engine : Option Nat := none
deriving DecidableEq, Repr

/-- `clear_cache()` (`src/functions.py` 42-46). -/
def clearCache (_c : Cache) : Cache :=
  { index := none, llm := none, query_engine := none }

/-- The outcome of one `requests` call as `delete_document`/`sync_pipeline`
observe it. -/
inductive HttpOutcome where
  | resp (status : Nat) (detail : String)
  | netError (msg : String)
deriving DecidableEq, Repr

/-- A `{'success': ..., 'message': ...}` result dict. -/
structure OpResult where
  success : Bool
  message : String
deriving DecidableEq, Repr

/-- The Python exceptions raised by the embedded code paths: `ValueError`
(from `delete_document`'s argument checks) and `TypeError` (from `re.sub`
applied to a non-string). -/
inductive PyExc where
  | valueError (msg : String)
  | typeError (msg : String)
deriving DecidableEq, Repr

/-- `needle` occurs as a substring of `hay` (Python's `in` on strings). -/
def containsSub (needle hay : List Char) : Bool :=
  match hay with
  | [] => needle.isEmpty
  | _ :: t => needle.isPrefixOf hay || containsSub needle t

/-- `str.lower()` (ASCII fragment). -/
def lowerStr (s : String) : String :=
  String.mk (s.data.map Char.toLower)

/-- `sync_pipeline(pipeline_id, api_key, base_url)`
(`src/functions.py` 237-280) as a function of the POST outcome. -/
def syncPipeline (pid key : Option String) (sy : HttpOutcome) : OpResult :=
  if pid = none || key = none then
    ⟨false, "Pipeline ID and API key are required"⟩
  else
    match sy with
    | .resp st detail =>
      if st = 200 || st = 202 || st = 204 then
        ⟨true, "Pipeline sync triggered"⟩
      else
        ⟨false, "Sync returned status " ++ toString st ++ ": " ++ detail⟩
    | .netError m => ⟨false, "Network error during sync: " ++ m⟩

/-- `delete_document(file_id, file_name, ...)` (`src/functions.py`
283-413): the three HTTP steps, the `steps_completed` bookkeeping (with its
literal step strings), the cache clearing, and the final
`'pipeline' in s` / `'project file' in s` substring checks.  Returns the
result (or the raised `ValueError`) together with the cache state after the
call. -/
def deleteDocument (fileId : String) (fileName : Option String)
    (pid key : Option String) (rPipeline rFile sy : HttpOutcome)
    (cache : Cache) : Except PyExc OpResult × Cache :=
  if fileId = "" then
    (.error (.valueError "File ID is required to delete a file!"), cache)
  else if pid = none || key = none then
    (.error (.valueError "Pipeline ID and API key are required"), cache)
  else
    let displayName := fileName.getD fileId
    match rPipeline with
    | .netError m =>
      (.ok ⟨false, "Network error deleting " ++ displayName ++ ": " ++ m⟩, cache)
    | .resp st1 detail1 =>
      let steps1 : List String :=
        if st1 = 200 || st1 = 204 then ["pipeline"]
        else if containsSub "already deleted".data (lowerStr detail1).data then
          ["pipeline (was already removed)"]
        else []
      match rFile with
      | .netError m =>
        (.ok ⟨false, "Network error deleting " ++ displayName ++ ": " ++ m⟩, cache)
      | .resp st2 _ =>
        let steps2 : List String :=
          if st2 = 200 || st2 = 204 then ["project file"]
          else if st2 = 404 then ["project file (was already gone)"]
          else []
        let syncRes := syncPipeline pid key sy
        let steps3 : List String := if syncRes.success then ["pipeline sync"] else []
        let steps := steps1 ++ steps2 ++ steps3 ++ ["cache cleared"]
        let cache2 := { cache with query_engine := none }
        let pipelineOk := steps.any (fun s => containsSub "pipeline".data s.data)
        let fileOk := steps.any (fun s => containsSub "project file".data s.data)
        let result : Except PyExc OpResult :=
          if pipelineOk && fileOk then
            .ok ⟨true, "Successfully deleted " ++ displayName ++ " (steps: "
              ++ String.intercalate ", " steps ++ ")"⟩
          else if pipelineOk || fileOk then
            .ok ⟨true, "Partially deleted " ++ displayName ++ " (steps: "
              ++ String.intercalate ", " steps
              ++ "). Full removal will complete after pipeline sync."⟩
          else
            .ok ⟨false, "Failed to delete " ++ displayName
              ++ ". No deletion steps succeeded."⟩
        (result, cache2)

/-- Step 1 actually removed the document from the pipeline: HTTP 200/204,
or the service reported it as already deleted. -/
def step1Removed (o : HttpOutcome) : Bool :=
  match o with
  | .resp st detail =>
    (decide (st = 200) || decide (st = 204))
      || containsSub "already deleted".data (lowerStr detail).data
  | .netError _ => false

/-- Step 2 actually removed the file from the project store: HTTP 200/204,
or 404 (already gone). -/
def step2Removed (o : HttpOutcome) : Bool :=
  match o with
  | .resp st _ => (decide (st = 200) || decide (st = 204)) || decide (st = 404)
  | .netError _ => false

/-- The document was actually removed from the pipeline. -/
def removedFromPipeline (o : HttpOutcome) : Prop :=
  step1Removed o = true

instance (o : HttpOutcome) : Decidable (removedFromPipeline o) := by
  unfold removedFromPipeline; infer_instance

/-- The file was actually removed from the project store. -/
def removedFromProject (o : HttpOutcome) : Prop :=
  step2Removed o = true

instance (o : HttpOutcome) : Decidable (removedFromProject o) := by
  unfold removedFromProject; infer_instance

/-- An entry of the document listing. -/
structure FileEntry where
  name : String
  id : Option String
deriving DecidableEq, Repr

/-- Outcome of one listing GET: a response carrying the status and the raw
`files` array (each file dict's optional `name` and `id`), or a raised
network error. -/
inductive FetchOutcome where
  | resp (status : Nat) (files : List (Option String × Option String)) (detail : String)
  | netError (msg : String)
deriving DecidableEq, Repr

/-- `requests.RequestException` as raised/re-raised by the fetch path. -/
inductive ReqExc where
  | requestException (msg : String)
deriving DecidableEq, Repr

/-- `[{'name': f.get('name', 'Unknown'), 'id': f.get('id')} for f in files]`. -/
def extractFiles (files : List (Option String × Option String)) : List FileEntry :=
  files.map (fun p => ⟨p.1.getD "Unknown", p.2⟩)

/-- The body of `fetch_uploaded_documents` (`src/functions.py` 186-234,
undecorated): missing credentials short-circuit to the hard-coded fallback
entry; a 200 returns the extracted listing; any other status raises
`requests.RequestException`; a network error propagates. -/
def fetchUploadedDocuments (pid key : Option String) (o : FetchOutcome) :
    Except ReqExc (List FileEntry) :=
  if pid = none || key = none then
    .ok [⟨"current.pdf", none⟩]
  else
    match o with
    | .resp st files detail =>
      if st = 200 then .ok (extractFiles files)
      else
        .error (.requestException ("Failed to fetch documents (status "
          ++ toString st ++ "): " ++ detail))
    | .netError m => .error (.requestException m)

/-- `@retry_with_backoff(max_retries=3, ...)`: run the call once per
attempt outcome; return the first success, or re-raise the exception of the
last attempt.  `fetch_uploaded_documents` makes `max_retries + 1 = 4`
attempts. -/
def retryRun (call : FetchOutcome → Except ReqExc (List FileEntry)) :
    List FetchOutcome → Except ReqExc (List FileEntry)
  | [] => .error (.requestException "no attempt was made")
  | [o] => call o
  | o :: o2 :: rest =>
    match call o with
    | .ok v => .ok v
    | .error _ => retryRun call (o2 :: rest)

/-- The decorated `fetch_uploaded_documents`, as the callers see it: one
outcome per attempt (up to 4). -/
def fetchDocumentsRetried (pid key : Option String) (attempts : List FetchOutcome) :
    Except ReqExc (List FileEntry) :=
  retryRun (fetchUploadedDocuments pid key) attempts

/-- `fetch_uploaded_documents` from `src/pages/rag_rim.py` (lines 26-56):
no retry; every failure path (non-200 status, network error, unexpected
exception) shows an error in the UI and returns the hard-coded fallback
`[{'name': 'current.pdf', 'id': None}]`. -/
def fetchUploadedDocumentsRim (o : FetchOutcome) : List FileEntry :=
  match o with
  | .resp st files _ =>
    if st = 200 then extractFiles files else [⟨"current.pdf", none⟩]
  | .netError _ => [⟨"current.pdf", none⟩]

/-- `clean_text` as called with a possibly-`None` argument.  The function
body has no `None` guard: its first statement, `re.sub(r'\*+', '', text)`,
raises `TypeError("expected string or bytes-like object")` when `text` is
`None`; every string input is processed normally. -/
def cleanTextChecked (arg : Option String) : Except PyExc String :=
  match arg with
  | none => .error (.typeError "expected string or bytes-like object")
  | some s => .ok (cleanText s)

/-- `isNetError o` iff the call raised instead of returning a response. -/
def isNetError : HttpOutcome → Bool
  | .netError _ => true
  | .resp _ _ => false

/-- The `success` flag of a `delete_document` result, `none` when the call
raised. -/
def deleteSuccess : Except PyExc OpResult → Option Bool
  | .ok r => some r.success
  | .error _ => none

/-! # Theorems -/

/-! ## Order facts about `dtLe` and the stable sort -/

theorem dtLe_refl (a : PyDateTime) : dtLe a a := by
  unfold dtLe; omega

theorem dtLe_total (a b : PyDateTime) : dtLe a b ∨ dtLe b a := by
  unfold dtLe; omega

instance : IsTotal NodeWithScore nodeGe :=
  ⟨fun a b => by unfold nodeGe dtLe; omega⟩

instance : IsTrans NodeWithScore nodeGe :=
  ⟨fun a b c hab hbc => by
    unfold nodeGe dtLe at hab hbc ⊢; omega⟩

theorem sortKey_eq_of_not_nodeGe {x y : NodeWithScore} (h : ¬ nodeGe x y) :
    sortKeyFn y ≠ sortKeyFn x := by
  intro hk
  apply h
  show dtLe (sortKeyFn y) (sortKeyFn x)
  rw [hk]
  exact dtLe_refl _

/-- Inserting `x` only walks past elements with a strictly larger key, so
filtering by any fixed key value commutes with the insertion. -/
theorem filter_orderedInsert_key (x : NodeWithScore) (l : List NodeWithScore)
    (k : PyDateTime) :
    (l.orderedInsert nodeGe x).filter (fun n => sortKeyFn n = k)
      = if sortKeyFn x = k then
          x :: l.filter (fun n => sortKeyFn n = k)
        else
          l.filter (fun n => sortKeyFn n = k) := by
  induction l with
  | nil =>
    by_cases hx : sortKeyFn x = k <;> simp [List.orderedInsert, hx]
  | cons y ys ih =>
    by_cases h : nodeGe x y
    · by_cases hx : sortKeyFn x = k <;>
        simp [List.orderedInsert, h, hx]
    · have hy : sortKeyFn y ≠ sortKeyFn x := sortKey_eq_of_not_nodeGe h
      by_cases hx : sortKeyFn x = k
      · have hyk : ¬ sortKeyFn y = k := fun hyk => hy (hyk.trans hx.symm)
        simp [List.orderedInsert, h, hx, hyk, ih]
      · by_cases hyk : sortKeyFn y = k <;>
          simp [List.orderedInsert, h, hx, hyk, ih]

/-- Stability of the insertion sort: the elements resolving to any fixed
key keep their input order. -/
theorem filter_insertionSort_key (l : List NodeWithScore) (k : PyDateTime) :
    (l.insertionSort nodeGe).filter (fun n => sortKeyFn n = k)
      = l.filter (fun n => sortKeyFn n = k) := by
  induction l with
  | nil => rfl
  | cons x xs ih =>
    by_cases hx : sortKeyFn x = k <;>
      simp [List.insertionSort, filter_orderedInsert_key, hx, ih]

theorem pairwise_of_all_min {l : List NodeWithScore}
    (h : ∀ n ∈ l, getNodeCreationDate n = none) : l.Pairwise nodeGe := by
  induction l with
  | nil => exact List.Pairwise.nil
  | cons x xs ih =>
    refine List.Pairwise.cons (fun b hb => ?_) (ih fun n hn => h n (by simp [hn]))
    have hx : getNodeCreationDate x = none := h x (by simp)
    have hbn : getNodeCreationDate b = none := h b (by simp [hb])
    unfold nodeGe sortKeyFn
    rw [hx, hbn]
    exact dtLe_refl _

/-! ## Claim C2 — the re-ranker is a stable descending sort -/

/-- **C2.**  The re-ranker orders candidates descending by resolved
document date with a stable sort: (1) the output is pairwise descending in
the resolved-date key; (2) for every key value, the candidates resolving to
it appear in the output in their original relative order; (3) re-ranking a
list that is already sorted newest-first returns it unchanged. -/
theorem claim_C2_reranker_stable_descending_sort :
    (∀ l : List NodeWithScore, (postprocessNodes l).Pairwise nodeGe)
    ∧ (∀ (l : List NodeWithScore) (k : PyDateTime),
        (postprocessNodes l).filter (fun n => sortKeyFn n = k)
          = l.filter (fun n => sortKeyFn n = k))
    ∧ (∀ l : List NodeWithScore, l.Pairwise nodeGe → postprocessNodes l = l) := by
  refine ⟨fun l => ?_, fun l k => ?_, fun l h => ?_⟩
  · exact List.sorted_insertionSort nodeGe l
  · exact filter_insertionSort_key l k
  · exact List.Sorted.insertionSort_eq h

/-- Witness for C2 on the spec's end-to-end scenario (§8): a marker-dated
Aug-01-2025 candidate, a `lpg250630.pdf` candidate and a dateless one. -/
theorem claim_C2_witness :
    (postprocessNodes
        [⟨⟨none, { file_name := some "lpg250630.pdf" }⟩, none⟩,
         ⟨⟨some "★NO.9999 Aug 01 2025", {}⟩, none⟩,
         ⟨⟨none, {}⟩, none⟩]).Pairwise nodeGe
    ∧ (postprocessNodes
        [⟨⟨none, { file_name := some "lpg250630.pdf" }⟩, none⟩,
         ⟨⟨some "★NO.9999 Aug 01 2025", {}⟩, none⟩]).filter
          (fun n => sortKeyFn n = ⟨2025, 8, 1⟩)
        = [⟨⟨some "★NO.9999 Aug 01 2025", {}⟩, none⟩]
    ∧ postprocessNodes
        [⟨⟨some "★NO.9999 Aug 01 2025", {}⟩, none⟩,
         ⟨⟨none, { file_name := some "lpg250630.pdf" }⟩, none⟩,
         ⟨⟨none, {}⟩, none⟩]
        = [⟨⟨some "★NO.9999 Aug 01 2025", {}⟩, none⟩,
           ⟨⟨none, { file_name := some "lpg250630.pdf" }⟩, none⟩,
           ⟨⟨none, {}⟩, none⟩] := by
  refine ⟨claim_C2_reranker_stable_descending_sort.1 _, ?_, ?_⟩
  · rw [claim_C2_reranker_stable_descending_sort.2.1]
    decide
  · exact claim_C2_reranker_stable_descending_sort.2.2 _ (by decide)

/-! ## Claim C5 — totality of the re-ranker -/

/-- **C5.**  `postprocess_nodes` is total (it is a Lean function; on the
Python side the body is one `sorted` call whose key function catches every
parse failure, so no input list can raise) and, for every input list, the
output is a permutation of the input — no candidate is dropped, added or
mutated; the empty list maps to itself, and when no candidate has a
resolvable date the order is exactly the input order. -/
theorem claim_C5_reranker_total_permutation :
    (∀ l : List NodeWithScore, List.Perm (postprocessNodes l) l)
    ∧ postprocessNodes [] = []
    ∧ (∀ l : List NodeWithScore,
        (∀ n ∈ l, getNodeCreationDate n = none) → postprocessNodes l = l) := by
  refine ⟨fun l => List.perm_insertionSort nodeGe l, rfl, fun l h => ?_⟩
  exact List.Sorted.insertionSort_eq (pairwise_of_all_min h)

/-- Witness for C5: three dateless candidates keep their order; a mixed
list is permuted, not filtered. -/
theorem claim_C5_witness :
    postprocessNodes
        [⟨⟨some "no marker", {}⟩, some 3⟩,
         ⟨⟨none, { file_name := some "notes.txt" }⟩, some 2⟩,
         ⟨⟨none, {}⟩, some 1⟩]
      = [⟨⟨some "no marker", {}⟩, some 3⟩,
         ⟨⟨none, { file_name := some "notes.txt" }⟩, some 2⟩,
         ⟨⟨none, {}⟩, some 1⟩]
    ∧ List.Perm
        (postprocessNodes
          [⟨⟨none, {}⟩, some 9⟩, ⟨⟨some "★NO.1 Jan 2 2003", {}⟩, none⟩])
        [⟨⟨none, {}⟩, some 9⟩, ⟨⟨some "★NO.1 Jan 2 2003", {}⟩, none⟩] := by
  refine ⟨claim_C5_reranker_total_permutation.2.2 _ (by decide), ?_⟩
  exact claim_C5_reranker_total_permutation.1 _

/-! ## Claim C4 — three-tier date resolution -/

/-- **C4.**  The resolved date of a candidate is determined by the fixed
three-tier lookup, first match winning: (1) a `creation_date` metadata
entry holding a `datetime` wins outright; (2) a string entry that parses as
a date wins; (3) when tier (a) yields nothing, a parsable inline marker
wins; (4) when tiers (a) and (b) yield nothing, the result is exactly the
file-name fallback; (5) `lpg250630.pdf` with no marker and no prior
metadata resolves to 2025-06-30; (6) a candidate with no resolvable date
gets the minimum key (`datetime.min`), so it sorts last. -/
theorem claim_C4_three_tier_date_resolution :
    (∀ (n : NodeWithScore) (d : PyDateTime),
        n.node.metadata.creation_date = some (.dt d) →
        getNodeCreationDate n = some d)
    ∧ (∀ (n : NodeWithScore) (v : String) (d : PyDateTime),
        n.node.metadata.creation_date = some (.str v) →
        parseIsoDate v = some d →
        getNodeCreationDate n = some d)
    ∧ (∀ (n : NodeWithScore) (m : DocMeta),
        priorMetadataDate n.node.metadata = none →
        parseDocumentMetadata (n.node.text.getD "") = some m →
        getNodeCreationDate n = some m.creation_date)
    ∧ (∀ n : NodeWithScore,
        priorMetadataDate n.node.metadata = none →
        parseDocumentMetadata (n.node.text.getD "") = none →
        getNodeCreationDate n = filenameDate (n.node.metadata.file_name.getD ""))
    ∧ getNodeCreationDate ⟨⟨none, { file_name := some "lpg250630.pdf" }⟩, none⟩
        = some ⟨2025, 6, 30⟩
    ∧ (∀ n : NodeWithScore, getNodeCreationDate n = none → sortKeyFn n = dtMin) := by
  refine ⟨?_, ?_, ?_, ?_, by decide, ?_⟩
  · intro n d h
    simp [getNodeCreationDate, priorMetadataDate, h]
  · intro n v d h1 h2
    simp [getNodeCreationDate, priorMetadataDate, h1, h2]
  · intro n m hA hB
    simp [getNodeCreationDate, hA, hB]
  · intro n hA hB
    simp [getNodeCreationDate, hA, hB]
  · intro n h
    unfold sortKeyFn
    rw [h]
    rfl

/-- Witness for C4: each tier exercised on a concrete candidate. -/
theorem claim_C4_witness :
    getNodeCreationDate ⟨⟨none, { creation_date := some (.dt ⟨2024, 5, 6⟩) }⟩, none⟩
      = some ⟨2024, 5, 6⟩
    ∧ getNodeCreationDate
        ⟨⟨none, { creation_date := some (.str "2023-01-02") }⟩, none⟩
      = some ⟨2023, 1, 2⟩
    ∧ getNodeCreationDate ⟨⟨some "★NO.5788 Jun 10 2025", {}⟩, none⟩
      = some ⟨2025, 6, 10⟩
    ∧ getNodeCreationDate
        ⟨⟨some "no marker", { file_name := some "lpg250630.pdf" }⟩, none⟩
      = filenameDate "lpg250630.pdf"
    ∧ sortKeyFn ⟨⟨none, {}⟩, none⟩ = dtMin := by
  refine ⟨?_, ?_, ?_, ?_, ?_⟩
  · exact claim_C4_three_tier_date_resolution.1 _ _ rfl
  · exact claim_C4_three_tier_date_resolution.2.1 _ "2023-01-02" _ rfl (by decide)
  · exact claim_C4_three_tier_date_resolution.2.2.1 _ ⟨5788, ⟨2025, 6, 10⟩⟩
      (by decide) (by decide)
  · exact claim_C4_three_tier_date_resolution.2.2.2.1 _ (by decide) (by decide)
  · exact claim_C4_three_tier_date_resolution.2.2.2.2.2 _ (by decide)

/-! ## Claim C10 — `delete_document` touches only the `query_engine` slot -/

/-- **C10.**  For every call, whatever it returns or raises, the `index`
and `llm` cache slots are exactly what they were before; and on the normal
path (valid arguments, neither HTTP delete raising), `query_engine` is set
to `None`. -/
theorem claim_C10_delete_document_cache_frame :
    ∀ (fid : String) (fn : Option String) (pid key : Option String)
      (rp rf sy : HttpOutcome) (c : Cache),
      ((deleteDocument fid fn pid key rp rf sy c).2.index = c.index
        ∧ (deleteDocument fid fn pid key rp rf sy c).2.llm = c.llm)
      ∧ (fid ≠ "" → pid ≠ none → key ≠ none →
          isNetError rp = false → isNetError rf = false →
          (deleteDocument fid fn pid key rp rf sy c).2.query_engine = none) := by
  intro fid fn pid key rp rf sy c
  have hcase : (deleteDocument fid fn pid key rp rf sy c).2 = c
      ∨ (deleteDocument fid fn pid key rp rf sy c).2
          = { c with query_engine := none } := by
    unfold deleteDocument
    split
    · exact Or.inl rfl
    · split
      · exact Or.inl rfl
      · cases rp with
        | netError m => exact Or.inl rfl
        | resp st1 d1 =>
          cases rf with
          | netError m => exact Or.inl rfl
          | resp st2 d2 => exact Or.inr rfl
  constructor
  · rcases hcase with h | h <;> rw [h] <;> exact ⟨rfl, rfl⟩
  · intro h1 h2 h3 h4 h5
    cases rp with
    | netError m => simp [isNetError] at h4
    | resp st1 d1 =>
      cases rf with
      | netError m => simp [isNetError] at h5
      | resp st2 d2 =>
        unfold deleteDocument
        rw [if_neg h1]
        have hcred : (decide (pid = none) || decide (key = none)) = false := by
          simp [h2, h3]
        simp only [hcred]
        rfl

/-- Witness for C10: a concrete successful delete leaves `index`/`llm`
untouched and clears `query_engine`. -/
theorem claim_C10_witness :
    (deleteDocument "f1" none (some "p") (some "k")
        (.resp 200 "") (.resp 204 "") (.resp 200 "")
        ⟨some 7, some 8, some 9⟩).2.index = some 7
    ∧ (deleteDocument "f1" none (some "p") (some "k")
        (.resp 200 "") (.resp 204 "") (.resp 200 "")
        ⟨some 7, some 8, some 9⟩).2.llm = some 8
    ∧ (deleteDocument "f1" none (some "p") (some "k")
        (.resp 200 "") (.resp 204 "") (.resp 200 "")
        ⟨some 7, some 8, some 9⟩).2.query_engine = none := by
  refine ⟨?_, ?_, ?_⟩
  · exact (claim_C10_delete_document_cache_frame "f1" none (some "p") (some "k")
      (.resp 200 "") (.resp 204 "") (.resp 200 "") ⟨some 7, some 8, some 9⟩).1.1
  · exact (claim_C10_delete_document_cache_frame "f1" none (some "p") (some "k")
      (.resp 200 "") (.resp 204 "") (.resp 200 "") ⟨some 7, some 8, some 9⟩).1.2
  · exact (claim_C10_delete_document_cache_frame "f1" none (some "p") (some "k")
      (.resp 200 "") (.resp 204 "") (.resp 200 "") ⟨some 7, some 8, some 9⟩).2
      (by decide) (by decide) (by decide) rfl rfl

/-! ## Claim C8 — `delete_document` can report success without removal -/

/-- **C8 counterexample.**  When both HTTP deletes fail with a 500 but the
pipeline sync succeeds, `delete_document` returns `success=True` ("Partially
deleted") although the document was removed from neither the pipeline nor
the project store: the `'pipeline' in s` check matches the `'pipeline sync'`
step string. -/
theorem claim_C8_counterexample :
    deleteSuccess (deleteDocument "file-1" none (some "p") (some "k")
        (.resp 500 "internal error") (.resp 500 "internal error")
        (.resp 200 "") {}).1
      = some true
    ∧ ¬ removedFromPipeline (.resp 500 "internal error")
    ∧ ¬ removedFromProject (.resp 500 "internal error") := by
  refine ⟨by decide, by decide, by decide⟩

/-- **C8 as amended.**  On the path where neither HTTP delete raises,
`delete_document` reports `success=True` exactly when step 1 removed the
document from the pipeline, or step 2 removed the file from the project,
or the pipeline sync succeeded (the substring check `'pipeline' in s`
also matches the `'pipeline sync'` step); a network exception in either
delete yields `success=False`.  In particular `success=True` does not imply
removal from both stores. -/
theorem claim_C8_amended_delete_success_semantics :
    (∀ (fid : String) (fn : Option String) (pid key : String)
        (rp rf sy : HttpOutcome) (c : Cache),
      fid ≠ "" → isNetError rp = false → isNetError rf = false →
      deleteSuccess (deleteDocument fid fn (some pid) (some key) rp rf sy c).1
        = some (step1Removed rp || step2Removed rf
            || (syncPipeline (some pid) (some key) sy).success))
    ∧ (∀ (fid : String) (fn : Option String) (pid key : String)
        (m : String) (rf sy : HttpOutcome) (c : Cache),
      fid ≠ "" →
      deleteSuccess (deleteDocument fid fn (some pid) (some key)
          (.netError m) rf sy c).1 = some false)
    ∧ (∀ (fid : String) (fn : Option String) (pid key : String)
        (st1 : Nat) (d1 m : String) (sy : HttpOutcome) (c : Cache),
      fid ≠ "" →
      deleteSuccess (deleteDocument fid fn (some pid) (some key)
          (.resp st1 d1) (.netError m) sy c).1 = some false) := by
  refine ⟨?_, ?_, ?_⟩
  · intro fid fn pid key rp rf sy c h1 h4 h5
    cases rp with
    | netError m => simp [isNetError] at h4
    | resp st1 d1 =>
      cases rf with
      | netError m => simp [isNetError] at h5
      | resp st2 d2 =>
        have h1' : ¬ (fid = "") := h1
        by_cases hD : st2 = 404
        · subst hD
          cases hA : (decide (st1 = 200) || decide (st1 = 204)) <;>
            cases hB : containsSub "already deleted".data (lowerStr d1).data <;>
              cases hE : (syncPipeline (some pid) (some key) sy).success <;>
                (simp [deleteDocument, deleteSuccess, step1Removed,
                  step2Removed, h1', hA, hB, hE]; rfl)
        · cases hA : (decide (st1 = 200) || decide (st1 = 204)) <;>
            cases hB : containsSub "already deleted".data (lowerStr d1).data <;>
              cases hC : (decide (st2 = 200) || decide (st2 = 204)) <;>
                cases hE : (syncPipeline (some pid) (some key) sy).success <;>
                  (simp [deleteDocument, deleteSuccess, step1Removed,
                    step2Removed, h1', hA, hB, hC, hD, hE]; rfl)
  · intro fid fn pid key m rf sy c h1
    simp [deleteDocument, deleteSuccess, h1]
  · intro fid fn pid key st1 d1 m sy c h1
    simp [deleteDocument, deleteSuccess, h1]

/-- Witness for the amended C8: a partial deletion (pipeline removal ok,
project delete failing) still reports `success=True`, and a network error
reports `success=False`. -/
theorem claim_C8_amended_witness :
    deleteSuccess (deleteDocument "f" none (some "p") (some "k")
        (.resp 204 "") (.resp 500 "boom") (.resp 500 "down") {}).1
      = some (step1Removed (.resp 204 "") || step2Removed (.resp 500 "boom")
          || (syncPipeline (some "p") (some "k") (.resp 500 "down")).success)
    ∧ deleteSuccess (deleteDocument "f" none (some "p") (some "k")
        (.netError "timeout") (.resp 200 "") (.resp 200 "") {}).1 = some false := by
  refine ⟨?_, ?_⟩
  · exact claim_C8_amended_delete_success_semantics.1 "f" none "p" "k"
      (.resp 204 "") (.resp 500 "boom") (.resp 500 "down") {}
      (by decide) rfl rfl
  · exact claim_C8_amended_delete_success_semantics.2.1 "f" none "p" "k"
      "timeout" (.resp 200 "") (.resp 200 "") {} (by decide)

/-! ## Claim C9 — listing does not degrade to an empty list -/

/-- **C9 counterexample.**  With every attempt failing (status 500), the
retried `fetch_uploaded_documents` re-raises the last exception rather than
returning `[]`, and the `rag_rim.py` variant returns the fabricated
placeholder entry rather than `[]`. -/
theorem claim_C9_counterexample :
    fetchDocumentsRetried (some "p") (some "k")
        [.resp 500 [] "err", .resp 500 [] "err", .resp 500 [] "err",
         .resp 500 [] "err"]
      = .error (.requestException
          ("Failed to fetch documents (status " ++ toString (500 : Nat)
            ++ "): err"))
    ∧ fetchUploadedDocumentsRim (.resp 500 [] "err") = [⟨"current.pdf", none⟩]
    ∧ ([⟨"current.pdf", none⟩] : List FileEntry) ≠ [] := by
  refine ⟨rfl, rfl, by decide⟩

/-- **C9 as amended.**  On total listing failure nothing degrades to the
empty list: the `functions.py` version raises `requests.RequestException`
on every non-200 response and, after all retries fail, re-raises; with
missing credentials it returns the placeholder `[{'name': 'current.pdf',
'id': None}]`; the `rag_rim.py` version returns that placeholder on every
failure.  The placeholder is not the empty list. -/
theorem claim_C9_amended_listing_failure_behavior :
    (∀ (pid key : String) (st : Nat)
        (fs : List (Option String × Option String)) (d : String),
      st ≠ 200 →
      fetchUploadedDocuments (some pid) (some key) (.resp st fs d)
        = .error (.requestException ("Failed to fetch documents (status "
            ++ toString st ++ "): " ++ d)))
    ∧ (∀ (pid key : String) (attempts : List FetchOutcome),
        attempts ≠ [] →
        (∀ a ∈ attempts, ∃ e,
          fetchUploadedDocuments (some pid) (some key) a = .error e) →
        ∃ e, fetchDocumentsRetried (some pid) (some key) attempts = .error e)
    ∧ (∀ (key : Option String) (o : FetchOutcome),
        fetchUploadedDocuments none key o = .ok [⟨"current.pdf", none⟩])
    ∧ (∀ (st : Nat) (fs : List (Option String × Option String)) (d : String),
        st ≠ 200 →
        fetchUploadedDocumentsRim (.resp st fs d) = [⟨"current.pdf", none⟩])
    ∧ (∀ m : String,
        fetchUploadedDocumentsRim (.netError m) = [⟨"current.pdf", none⟩])
    ∧ ([⟨"current.pdf", none⟩] : List FileEntry) ≠ [] := by
  refine ⟨?_, ?_, ?_, ?_, fun m => rfl, by decide⟩
  · intro pid key st fs d h
    simp [fetchUploadedDocuments, h]
  · intro pid key attempts
    induction attempts with
    | nil => intro h _; exact absurd rfl h
    | cons a rest ih =>
      intro _ hall
      cases rest with
      | nil =>
        obtain ⟨e, he⟩ := hall a (by simp)
        exact ⟨e, by simp [fetchDocumentsRetried, retryRun, he]⟩
      | cons b rest2 =>
        obtain ⟨e, he⟩ := hall a (by simp)
        obtain ⟨e2, he2⟩ := ih (by simp)
          (fun x hx => hall x (by simp [hx]))
        refine ⟨e2, ?_⟩
        simp only [fetchDocumentsRetried, retryRun, he]
        exact he2
  · intro key o
    rfl
  · intro st fs d h
    simp [fetchUploadedDocumentsRim, h]

/-- Witness for the amended C9 at concrete failing outcomes. -/
theorem claim_C9_amended_witness :
    fetchUploadedDocuments (some "p") (some "k") (.resp 503 [] "unavailable")
      = .error (.requestException ("Failed to fetch documents (status "
          ++ toString (503 : Nat) ++ "): unavailable"))
    ∧ (∃ e, fetchDocumentsRetried (some "p") (some "k")
        [.netError "t1", .netError "t2"] = .error e)
    ∧ fetchUploadedDocumentsRim (.resp 503 [] "unavailable")
      = [⟨"current.pdf", none⟩] := by
  refine ⟨?_, ?_, ?_⟩
  · exact claim_C9_amended_listing_failure_behavior.1 "p" "k" 503 [] "unavailable"
      (by decide)
  · exact claim_C9_amended_listing_failure_behavior.2.1 "p" "k"
      [.netError "t1", .netError "t2"] (by simp)
      (fun a ha => by
        simp only [List.mem_cons, List.not_mem_nil, or_false] at ha
        rcases ha with h | h
        · subst h; exact ⟨.requestException "t1", rfl⟩
        · subst h; exact ⟨.requestException "t2", rfl⟩)
  · exact claim_C9_amended_listing_failure_behavior.2.2.2.1 503 [] "unavailable"
      (by decide)

/-! ## Claim C3 — metadata extraction -/

theorem markerTryAt_ne_star {c : Char} (h : c ≠ '★') (cs : List Char) :
    markerTryAt (c :: cs) = none := by
  unfold markerTryAt
  split
  · rename_i rest heq
    obtain ⟨h1, -⟩ := List.cons.inj heq
    exact absurd h1 h
  · rfl

/-- The search never matches in text that has no `★` at all. -/
theorem markerSearch_none (f : Nat) (cs : List Char)
    (h : ∀ c ∈ cs, c ≠ '★') : markerSearch f cs = none := by
  induction cs generalizing f with
  | nil => cases f <;> rfl
  | cons c cs ih =>
    cases f with
    | zero => rfl
    | succ f =>
      have hc : c ≠ '★' := h c (by simp)
      simp only [markerSearch, markerTryAt_ne_star hc]
      exact ih f (fun x hx => h x (by simp [hx]))

/-- Scanning skips a `★`-free prefix. -/
theorem markerSearch_skip (p : List Char) (f : Nat) (rest : List Char)
    (h : ∀ c ∈ p, c ≠ '★') :
    markerSearch (p.length + f) (p ++ rest) = markerSearch f rest := by
  induction p generalizing f with
  | nil => simp
  | cons c p ih =>
    have hc : c ≠ '★' := h c (by simp)
    have hlen : (c :: p).length + f = (p.length + f) + 1 := by
      simp [List.length_cons]
      omega
    rw [hlen]
    show markerSearch ((p.length + f) + 1) (c :: (p ++ rest)) = markerSearch f rest
    simp only [markerSearch, markerTryAt_ne_star hc]
    exact ih f (fun x hx => h x (by simp [hx]))

/-- The regex matches at the marker itself, whatever text follows: every
greedy run it takes stops inside the marker, and `\d{4}` takes exactly the
four year digits. -/
theorem markerTryAt_concrete (t : List Char) :
    markerTryAt ('★' :: 'N' :: 'O' :: '.' :: '5' :: '7' :: '8' :: '8' :: ' '
        :: 'J' :: 'u' :: 'n' :: ' ' :: '1' :: '0' :: ' ' :: '2' :: '0' :: '2'
        :: '5' :: t)
      = some (['5', '7', '8', '8'],
          ['J', 'u', 'n', ' ', '1', '0', ' ', '2', '0', '2', '5']) := rfl

theorem markerSearch_at_head (f : Nat) (t : List Char) :
    markerSearch (f + 1) ('★' :: 'N' :: 'O' :: '.' :: '5' :: '7' :: '8' :: '8'
        :: ' ' :: 'J' :: 'u' :: 'n' :: ' ' :: '1' :: '0' :: ' ' :: '2' :: '0'
        :: '2' :: '5' :: t)
      = some (['5', '7', '8', '8'],
          ['J', 'u', 'n', ' ', '1', '0', ' ', '2', '0', '2', '5']) := by
  simp only [markerSearch, markerTryAt_concrete]

/-- **C3 counterexample.**  A text that contains the marker
`★NO.5788 Jun 10 2025` need not yield `5788`/2025-06-10: only the first
regex match is parsed, and an earlier matched-but-unparsable marker makes
the whole extraction return `None`. -/
theorem claim_C3_counterexample :
    containsSub "★NO.5788 Jun 10 2025".data
        "★NO.1 Xyz 10 2025 ★NO.5788 Jun 10 2025".data = true
    ∧ parseDocumentMetadata "★NO.1 Xyz 10 2025 ★NO.5788 Jun 10 2025" = none := by
  refine ⟨by decide, by decide⟩

/-- **C3 as amended.**  When the *first* marker occurrence is
`★NO.5788 Jun 10 2025` — in particular when nothing before it contains the
marker glyph `★` — extraction returns `sequence_number = 5788` and
`creation_date = 2025-06-10`, whatever follows; text with no `★` at all
yields `None`; and a first marker whose date part does not parse (invalid
month abbreviation) yields `None` rather than raising. -/
theorem claim_C3_amended_metadata_extraction :
    (∀ p s : String, '★' ∉ p.data →
        parseDocumentMetadata (p ++ "★NO.5788 Jun 10 2025" ++ s)
          = some ⟨5788, ⟨2025, 6, 10⟩⟩)
    ∧ (∀ t : String, '★' ∉ t.data → parseDocumentMetadata t = none)
    ∧ parseDocumentMetadata "★NO.123 Foo 10 2025" = none := by
  refine ⟨?_, ?_, by decide⟩
  · intro p s hp
    have hd : (p ++ "★NO.5788 Jun 10 2025" ++ s).data
        = p.data ++ ('★' :: 'N' :: 'O' :: '.' :: '5' :: '7' :: '8' :: '8'
            :: ' ' :: 'J' :: 'u' :: 'n' :: ' ' :: '1' :: '0' :: ' ' :: '2'
            :: '0' :: '2' :: '5' :: s.data) := by
      rw [String.data_append, String.data_append, List.append_assoc]
      rfl
    have hne : p ++ "★NO.5788 Jun 10 2025" ++ s ≠ "" := by
      intro h0
      have h1 := congrArg String.data h0
      rw [hd] at h1
      simp at h1
    unfold parseDocumentMetadata
    rw [if_neg hne, hd, List.length_append, Nat.add_assoc,
      markerSearch_skip p.data _ _ (fun c hc heq => hp (heq ▸ hc)),
      markerSearch_at_head]
    rfl
  · intro t ht
    by_cases h0 : t = ""
    · simp [parseDocumentMetadata, h0]
    · unfold parseDocumentMetadata
      rw [if_neg h0,
        markerSearch_none _ _ (fun c hc heq => ht (heq ▸ hc))]

/-- Witness for the amended C3: a marker embedded in surrounding text, and
marker-free text. -/
theorem claim_C3_witness :
    parseDocumentMetadata ("page 1 of 3 " ++ "★NO.5788 Jun 10 2025" ++ "\nBody.")
      = some ⟨5788, ⟨2025, 6, 10⟩⟩
    ∧ parseDocumentMetadata "no marker anywhere" = none := by
  refine ⟨?_, ?_⟩
  · exact claim_C3_amended_metadata_extraction.1 "page 1 of 3 " "\nBody."
      (by decide)
  · exact claim_C3_amended_metadata_extraction.2.1 "no marker anywhere"
      (by decide)

/-! ## Claim C1 — normalization is not idempotent (code bug) -/

/-- **C1 (code bug).**  The spec requires `normalize(normalize(s)) ==
normalize(s)` for all `s`.  The `main_GeminiCloud.py` `clean_text`
violates it: its spaced-digit repair only joins digits separated by single
spaces and runs before space collapsing, so `"1  1"` first becomes
`"1 1"`, and a second application merges that to `"11"`. -/
theorem claim_C1_gemini_clean_text_not_idempotent :
    cleanTextGemini "1  1" = "1 1"
    ∧ cleanTextGemini (cleanTextGemini "1  1") = "11"
    ∧ cleanTextGemini (cleanTextGemini "1  1") ≠ cleanTextGemini "1  1" := by
  refine ⟨by decide, by decide, by decide⟩

/-! ## Claim C6 — the stacked-character collapse is not line-based -/

/-- **C6 counterexample.**  The collapse is not restricted to runs of ≥ 3
ultra-short lines: two stacked digit lines merge (`"1\n2"` becomes `"12"`),
and a run of three 2-character word lines is not merged at all. -/
theorem claim_C6_counterexample :
    cleanText "1\n2" = "12"
    ∧ cleanText "to\nbe\nor" = "to\nbe\nor" := by
  refine ⟨by decide, by decide⟩

/-- **C6 as amended.**  The concrete stacked-price example collapses as the
spec says, but the mechanism is character-class pattern repair, not a
line-run pass: adjacent digits merge across any whitespace regardless of
the run length, while multi-character word lines are never merged. -/
theorem claim_C6_amended_stacked_collapse :
    cleanText "6\n3\n9\n-\n6\n4\n9\n/\nm\nt" = "639-649/mt"
    ∧ cleanText "1\n2" = "12"
    ∧ cleanText "to\nbe\nor" = "to\nbe\nor"
    ∧ cleanText "it is\nok" = "it is\nok" := by
  refine ⟨by decide, by decide, by decide, by decide⟩

/-! ## Claim C7 — `clean_text` and `None` input -/

/-- **C7 counterexample.**  There is no `None` guard: `clean_text(None)`
raises `TypeError` from its first `re.sub` instead of returning `""`. -/
theorem claim_C7_counterexample :
    cleanTextChecked none
      = .error (.typeError "expected string or bytes-like object")
    ∧ cleanTextChecked none ≠ .ok "" := by
  refine ⟨rfl, by simp [cleanTextChecked]⟩

/-- **C7 as amended.**  `clean_text` never raises on any *string* input
(the embedding is a total function on strings) and maps the empty string to
the empty string — in both variants — but `None` input raises `TypeError`
rather than returning `""`. -/
theorem claim_C7_amended_clean_text_totality :
    (∀ s : String, cleanTextChecked (some s) = .ok (cleanText s))
    ∧ cleanText "" = ""
    ∧ cleanTextGemini "" = ""
    ∧ cleanTextChecked none
        = .error (.typeError "expected string or bytes-like object") := by
  exact ⟨fun s => rfl, by decide, by decide, rfl⟩

end RagNGL
